import Mathlib

/-!
# Bounce ingestion of listmonk: webhook parsers and the bounce manager

A shallow embedding of `cmd/bounce.go` (the webhook handler and the three
provider parsers) and of `internal/bounce/bounce.go` (the bounce manager),
followed by the theorems that settle the claims made about them.

Conventions of the embedding.
* A Go `string` is a Lean `String`; a Go `[]byte` (`json.RawMessage`, a request
  body) is a list of byte values.
* A Go `error` result is an `Option` (`none` is `nil`); a function returning
  `(value, error)` returns a `Result`, which also has a case for a run-time
  panic, so that "this index is never out of range" can be stated.
* What the handlers take from other packages (the e-mail and UUID validators,
  `strings.ToLower`, `time.Now`, `json.Unmarshal`, the request) is an explicit
  argument: a field of `App`, of `Context`, or a function parameter.
-/

set_option autoImplicit false

namespace Listmonk

/-! ## The time package (standard library), as far as the handlers use it -/

/-- A `*time.Location` as far as the calendar methods use it: the offset, in
seconds east of UTC, that is in effect at a Unix time (the second result of
`l.lookup(sec)`). -/
abbrev Location := Int → Int

/-- The location `time.UTC`. -/
def UTC : Location := fun _ => 0

/-- An instant as Go's `time.Time` holds it when it has no monotonic reading:
`sec` counts seconds since January 1, year 1 00:00:00 UTC (the field `ext`),
`nsec` the nanoseconds within the second, and `offset` is what the location of
the value (the field `loc`) gives for this instant: the seconds east of UTC,
which are zero for UTC and for the nil location. -/
structure Time where
  sec : Int
  nsec : Nat
  offset : Int
  deriving DecidableEq, Repr

/-- The zero value of `time.Time`: all fields zero, the location nil. -/
def Time.zero : Time := ⟨0, 0, 0⟩

def secondsPerDay : Nat := 86400
def daysPer400Years : Nat := 365 * 400 + 97
def daysPer100Years : Nat := 365 * 100 + 24
def daysPer4Years : Nat := 365 * 4 + 1

/-- The year of the absolute epoch of package time (`absoluteZeroYear`). -/
def absoluteZeroYear : Int := -292277022399

/-- The year of the internal epoch of package time (`internalYear`). -/
def internalYear : Int := 1

/-- Seconds from the internal epoch (year 1) to the Unix epoch (1970):
`(1969*365 + 1969/4 - 1969/100 + 1969/400) * secondsPerDay`. -/
def unixToInternal : Int := (1969 * 365 + 1969 / 4 - 1969 / 100 + 1969 / 400) * 86400

/-- The constant `absoluteToInternal`:
`(absoluteZeroYear - internalYear) * 365.2425 * secondsPerDay`, where
`365.2425 * 86400 = 31556952`. -/
def absoluteToInternal : Int := (absoluteZeroYear - internalYear) * 31556952

/-- The constant `internalToAbsolute`: seconds from the absolute epoch to the
internal epoch. -/
def internalToAbsolute : Int := -absoluteToInternal

/-- Conversion of an integer to `int64` (two's complement wrap-around). -/
def wrapInt64 (x : Int) : Int := (x + 2 ^ 63) % 2 ^ 64 - 2 ^ 63

/-- Conversion of an integer to `uint64` (wrap-around). -/
def wrapUint64 (x : Int) : Nat := (x % 2 ^ 64).toNat

/-- The constant `internalToUnix`. -/
def internalToUnix : Int := -unixToInternal

/-- The method `Time.unixSec`: seconds since the Unix epoch, an `int64`. -/
def Time.unixSec (t : Time) : Int := wrapInt64 (t.sec + internalToUnix)

/-- The method `Time.abs`: the offset of the location is added to the Unix
seconds, and the sum is taken from the absolute epoch, as a `uint64`. -/
def Time.abs (t : Time) : Nat :=
  let sec := t.unixSec
  let sec := wrapInt64 (sec + t.offset)
  wrapUint64 (wrapInt64 (sec + (unixToInternal + internalToAbsolute)))

/-- The year computed by `absDate` of package time from the seconds since the
absolute epoch: 400-year, 100-year and 4-year cycles are cut off in turn, then
the years within the last 4-year cycle (`n >> 2` is `n / 4`). -/
def absDateYear (abs : Nat) : Int :=
  let d := abs / secondsPerDay
  -- Account for 400 year cycles.
  let n := d / daysPer400Years
  let y := 400 * n
  let d := d - daysPer400Years * n
  -- Cut off 100-year cycles.
  let n := d / daysPer100Years
  let n := n - n / 4
  let y := y + 100 * n
  let d := d - daysPer100Years * n
  -- Cut off 4-year cycles.
  let n := d / daysPer4Years
  let y := y + 4 * n
  let d := d - daysPer4Years * n
  -- Cut off years within a 4-year cycle.
  let n := d / 365
  let n := n - n / 4
  let y := y + n
  wrapInt64 ((y : Int) + absoluteZeroYear)

/-- The method `Time.Year`: the year of the instant in the location of the
value. -/
def Time.Year (t : Time) : Int := absDateYear t.abs

/-- The function `time.Unix(sec, 0)`: the instant `sec` seconds after the Unix
epoch (`sec` is an `int64`, and so is the sum), in the location `time.Local`,
which is the argument `loc`. -/
def Time.Unix (loc : Location) (sec : Int) : Time :=
  ⟨wrapInt64 (sec + unixToInternal), 0, loc sec⟩

/-! ## Data model -/

/-- A byte slice (`[]byte`, `json.RawMessage`): the list of its byte values. -/
abbrev Bytes := List Nat

/-- The bytes of the default `Meta`, the two-character text of the empty JSON
object: an opening brace (123) and a closing brace (125). -/
def emptyJSONObject : Bytes := [123, 125]

/-- The record `models.Bounce`, with the fields the handlers and the manager
read or write. -/
structure Bounce where
  SubscriberUUID : String
  Email : String
  CampaignUUID : String
  /-- The field `Type` of the Go struct (`Type` is a reserved word here). -/
  Typ : String
  Source : String
  Meta : Bytes
  CreatedAt : Time
  deriving DecidableEq, Repr

/-- The zero value of `models.Bounce` (`var b models.Bounce`). -/
def Bounce.zero : Bounce := ⟨"", "", "", "", "", [], Time.zero⟩

/-- Modelled from the spec: the declaration of `models.BounceTypeHard` is not
among the sources; the spec gives the type of a converted SendGrid event as
`hard`. -/
def BounceTypeHard : String := "hard"

/-- The struct `sendgridNotif`. -/
structure sendgridNotif where
  Email : String
  Timestamp : Int
  Event : String
  deriving DecidableEq, Repr

/-- A decoded JSON object of type `map[string]string`, as the list of its
entries; a key is looked up with `List.lookup`. -/
abbrev Header := List (String × String)

/-- The field `Bounce` of `sesNotif`. -/
structure sesBounce where
  BounceType : String
  deriving DecidableEq, Repr

/-- The field `Mail` of `sesNotif`. -/
structure sesMail where
  Timestamp : Time
  HeadersTruncated : Bool
  Destination : List String
  Headers : List Header
  deriving DecidableEq, Repr

/-- The struct `sesNotif`. -/
structure sesNotif where
  NotifType : String
  Bounce : sesBounce
  Mail : sesMail
  deriving DecidableEq, Repr

/-- An `*echo.HTTPError`: the status code and the key of the message (the
message itself is the translation `app.i18n.T(key)`). -/
structure HTTPError where
  Code : Nat
  Message : String
  deriving DecidableEq, Repr

def StatusBadRequest : Nat := 400

/-- The outcome of a Go function returning `(value, error)`: a value with a nil
error, an error, or a run-time panic. -/
inductive Result (α : Type) where
  | ok (v : α)
  | error (e : HTTPError)
  | panicked (msg : String)
  deriving DecidableEq, Repr

/-- What the handlers use of `*App` and of the packages they import.
`IsEmail` is `subimporter.IsEmail`, `reUUIDMatch` is `reUUID.MatchString`,
`ToLower` is `strings.ToLower`, `Now` is the value `time.Now()` returns,
`Local` is the location `time.Local` of the process,
`EmailHeaderCampaignUUID` is the constant `models.EmailHeaderCampaignUUID`,
and the two `unmarshal` functions are `json.Unmarshal` into a `sesNotif` and
into a `[]sendgridNotif` (`none` when it returns an error). -/
structure App where
  IsEmail : String → Bool
  reUUIDMatch : String → Bool
  ToLower : String → String
  Now : Time
  Local : Location
  EmailHeaderCampaignUUID : String
  unmarshalSES : Bytes → Option sesNotif
  unmarshalSendgrid : Bytes → Option (List sendgridNotif)

/-- What the handlers use of the `echo.Context`: `service` is
`c.Param("service")`, `bind` the outcome of `c.Bind(&b)` (the bound object, or
the error), `body` the outcome of `ioutil.ReadAll(c.Request().Body)` (`none`
when the read fails). -/
structure Context where
  service : String
  bind : Except HTTPError Bounce
  body : Option Bytes

/-! ## cmd/bounce.go -/

/-- The function `validateBounceFields`. -/
def validateBounceFields (b : Bounce) (app : App) : Option HTTPError :=
  if b.Email == "" && b.SubscriberUUID == "" then
    some ⟨StatusBadRequest, "globals.messages.invalidData"⟩
  else if b.Email != "" && !app.IsEmail b.Email then
    some ⟨StatusBadRequest, "globals.messages.invalidEmail"⟩
  else if b.SubscriberUUID != "" && !app.reUUIDMatch b.SubscriberUUID then
    some ⟨StatusBadRequest, "globals.messages.invalidUUID"⟩
  else
    none

/-- The header loop of `parseSESNotif`, from the current value of `campUUID`:
an entry without a `name`, or with another name, is skipped; at an entry with
the campaign name `campUUID` is assigned `h["value"]` (the empty string when the
key is missing), and the loop goes on when the key is missing and breaks
otherwise. -/
def scanHeaders (campaignHeader : String) : List Header → String → String
  | [], campUUID => campUUID
  | h :: rest, campUUID =>
    match h.lookup "name" with
    | none => scanHeaders campaignHeader rest campUUID
    | some key =>
      if key != campaignHeader then
        scanHeaders campaignHeader rest campUUID
      else
        match h.lookup "value" with
        | none => scanHeaders campaignHeader rest ""
        | some v => v

/-- An entry of the headers array that ends the scan: its `name` is the campaign
header and it has a `value`. -/
def campaignHit (campaignHeader : String) (h : Header) : Bool :=
  h.lookup "name" == some campaignHeader && (h.lookup "value").isSome

/-- The function `parseSESNotif`. -/
def parseSESNotif (c : Context) (app : App) : Result Bounce :=
  match c.body with
  | none => .error ⟨StatusBadRequest, "globals.messages.internalError"⟩
  | some rawReq =>
    match app.unmarshalSES rawReq with
    | none => .error ⟨StatusBadRequest, "globals.messages.invalidData"⟩
    | some event =>
      if event.Mail.Destination.length == 0 then
        .error ⟨StatusBadRequest, "globals.messages.invalidData"⟩
      else
        let typ := if event.Bounce.BounceType == "Permanent" then "hard" else "soft"
        let campUUID :=
          if !event.Mail.HeadersTruncated then
            scanHeaders app.EmailHeaderCampaignUUID event.Mail.Headers ""
          else ""
        match event.Mail.Destination[0]? with
        | none => .panicked "index out of range [0]"
        | some email =>
          .ok { Bounce.zero with
                Email := email
                CampaignUUID := campUUID
                Typ := typ
                Source := "ses"
                Meta := rawReq
                CreatedAt := event.Mail.Timestamp }

/-- The loop of `parseSendgridNotif` over the decoded events, appending to
`out`. -/
def sendgridLoop (app : App) : List sendgridNotif → List Bounce → List Bounce
  | [], out => out
  | e :: rest, out =>
    if e.Event != "bounce" then
      sendgridLoop app rest out
    else
      let tstamp := Time.Unix app.Local e.Timestamp
      let b : Bounce := { Bounce.zero with
                          Email := e.Email
                          Typ := BounceTypeHard
                          Source := "sendgrid"
                          CreatedAt := tstamp }
      sendgridLoop app rest (out ++ [b])

/-- The function `parseSendgridNotif`. -/
def parseSendgridNotif (c : Context) (app : App) : Result (List Bounce) :=
  match c.body with
  | none => .error ⟨StatusBadRequest, "globals.messages.internalError"⟩
  | some rawReq =>
    match app.unmarshalSendgrid rawReq with
    | none => .error ⟨StatusBadRequest, "globals.messages.invalidData"⟩
    | some events => .ok (sendgridLoop app events [])

/-- What a call of `handleBounceWebhook` does: `err` is the error it returns
(`none` after the response `200`), `recorded` the records it passed to
`app.bounce.Record`, in order, and `panicked` says that it did not return. -/
structure Handled where
  err : Option HTTPError
  recorded : List Bounce
  panicked : Bool
  deriving DecidableEq, Repr

/-- The native branch of `handleBounceWebhook` (`case ""`), up to the record it
appends to `bounces`. -/
def nativeBounce (c : Context) (app : App) : Result Bounce :=
  match c.bind with
  | .error e => .error e
  | .ok b =>
    match validateBounceFields b app with
    | some e => .error e
    | none =>
      let b := { b with Email := app.ToLower b.Email }
      let b := if b.Meta.length == 0 then { b with Meta := emptyJSONObject } else b
      let b := if b.CreatedAt.Year == 0 then { b with CreatedAt := app.Now } else b
      .ok b

/-- The function `handleBounceWebhook`. -/
def handleBounceWebhook (c : Context) (app : App) : Handled :=
  let parsed : Result (List Bounce) :=
    if c.service == "" then
      match nativeBounce c app with
      | .ok b => .ok [b]
      | .error e => .error e
      | .panicked m => .panicked m
    else if c.service == "ses" then
      match parseSESNotif c app with
      | .ok b => .ok [b]
      | .error e => .error e
      | .panicked m => .panicked m
    else if c.service == "sendgrid" then
      parseSendgridNotif c app
    else
      .error ⟨StatusBadRequest, "bounces.unknownService"⟩
  match parsed with
  | .ok bounces => ⟨none, bounces, false⟩
  | .error e => ⟨some e, [], false⟩
  | .panicked _ => ⟨none, [], true⟩

/-! ## internal/bounce/bounce.go -/

/-- The options `mailbox.Opt` of a mailbox client, with the fields the sources
read (`imap.go` and `runMailboxScanner`); `ScanInterval` is a duration in
nanoseconds. -/
structure MailboxOpt where
  Host : String
  Port : Int
  Username : String
  Password : String
  Folder : String
  TLSEnabled : Bool
  TLSSkipVerify : Bool
  ScanInterval : Int
  deriving DecidableEq, Repr

/-- A non-nil value of the interface `Mailbox`: the client that implements it. -/
inductive Mailbox where
  | POP (opt : MailboxOpt)
  deriving DecidableEq, Repr

/-- Modelled from the spec: `mailbox.NewPOP` is not among the sources; it is the
constructor of the POP client, which keeps the options it is given (as
`NewIMAP` does in `imap.go`). -/
def NewPOP (opt : MailboxOpt) : Mailbox := .POP opt

/-- The struct `Opt`. -/
structure Opt where
  BounceCount : Int
  BounceAction : String
  MailboxEnabled : Bool
  MailboxType : String
  Mailbox : MailboxOpt
  EnableWebhooks : Bool
  deriving DecidableEq, Repr

/-- The struct `Manager`: `queueCap` is the capacity of the channel `queue`,
`mailbox` the interface field of that name (`none` is the nil interface). The
prepared statement `queries.RecordQuery` is an argument of `Run`. -/
structure Manager where
  queueCap : Nat
  mailbox : Option Mailbox
  opt : Opt
  deriving DecidableEq, Repr

/-- The function `New`: the manager, or the error (with a nil manager). -/
def New (opt : Opt) : Except String Manager :=
  let m : Manager := { opt := opt, queueCap := 1000, mailbox := none }
  if opt.MailboxEnabled then
    if opt.MailboxType == "pop" then
      .ok { m with mailbox := some (NewPOP opt.Mailbox) }
    else if opt.MailboxType == "imap" then
      .ok m
    else
      .error "unknown bounce mailbox type"
  else
    .ok m

/-- The nine arguments of one call of `m.queries.RecordQuery.Exec`. -/
structure ExecArgs where
  SubscriberUUID : String
  Email : String
  CampaignUUID : String
  Typ : String
  Source : String
  Meta : Bytes
  CreatedAt : Time
  BounceCount : Int
  BounceAction : String
  deriving DecidableEq, Repr

/-- The error result of one call of `Exec`: nil, a `*pq.Error` with its field
`Column` and its text, or an error of another type with its text. -/
inductive ExecResult where
  | ok
  | pqError (Column : String) (msg : String)
  | otherError (msg : String)
  deriving DecidableEq, Repr

/-- What `Run` does that can be observed: a call of `Exec`, or a line logged. -/
inductive Event where
  | exec (args : ExecArgs)
  | log (msg : String)
  deriving DecidableEq, Repr

/-- The channel `m.queue` as `Run` sees it: `items` are the records received, in
the order they were sent, and `closed` says whether the channel is closed after
them (when it is not, the receive that follows the last record never
completes). -/
structure Queue where
  items : List Bounce
  closed : Bool
  deriving DecidableEq, Repr

/-- The arguments `Run` passes to `Exec` for the record `b`. -/
def Manager.execArgs (m : Manager) (b : Bounce) : ExecArgs :=
  { SubscriberUUID := b.SubscriberUUID
    Email := b.Email
    CampaignUUID := b.CampaignUUID
    Typ := b.Typ
    Source := b.Source
    Meta := b.Meta
    CreatedAt := b.CreatedAt
    BounceCount := m.opt.BounceCount
    BounceAction := m.opt.BounceAction }

/-- The `for` loop of `Run`, one iteration per received record: the events in
order, and whether the loop returns (the receive on the drained channel yields
`ok = false` exactly when the channel is closed). -/
def Manager.runLoop (m : Manager) (exec : ExecArgs → ExecResult) (closed : Bool) :
    List Bounce → List Event × Bool
  | [] => ([], closed)
  | b :: rest =>
    let logged : List Event :=
      match exec (m.execArgs b) with
      | .ok => []
      | .pqError Column msg =>
        if Column == "subscriber_id" then
          [.log ("bounced subscriber (" ++ b.SubscriberUUID ++ " / " ++ b.Email ++ ") not found")]
        else
          [.log ("error recording bounce: " ++ msg)]
      | .otherError msg => [.log ("error recording bounce: " ++ msg)]
    let next := m.runLoop exec closed rest
    (Event.exec (m.execArgs b) :: logged ++ next.1, next.2)

/-- The calls of `Exec` among the events, in order. -/
def execCalls : List Event → List ExecArgs
  | [] => []
  | .exec a :: rest => a :: execCalls rest
  | .log _ :: rest => execCalls rest

/-- The state of `runMailboxScanner` after some rounds of its loop: still
running, with the lines logged, or stopped by a run-time panic. -/
inductive Scanner where
  | running (logs : List String)
  | panicked (msg : String)
  deriving DecidableEq, Repr

/-- The method `runMailboxScanner`, for as many rounds of its endless loop as
`scans` has entries: an entry is the error the call `m.mailbox.Scan(1000,
m.queue)` of that round returns (`none` is nil). Calling the method on the nil
interface is a run-time panic. -/
def Manager.runMailboxScanner (m : Manager) : List (Option String) → Scanner
  | [] => .running []
  | scan :: later =>
    match m.mailbox with
    | none => .panicked "invalid memory address or nil pointer dereference"
    | some _ =>
      let logged : List String :=
        match scan with
        | some err => ["error scanning bounce mailbox: " ++ err]
        | none => []
      match m.runMailboxScanner later with
      | .running logs => .running (logged ++ logs)
      | .panicked msg => .panicked msg

/-- The outcome of a call of `Run`: whether it started `runMailboxScanner`, the
events of its loop, whether it returned, and whether the process was ended by a
panic of the scanner goroutine. -/
structure RunTrace where
  scannerStarted : Bool
  events : List Event
  returned : Bool
  panicked : Bool
  deriving DecidableEq, Repr

/-- The method `Run`. With the mailbox enabled it starts `runMailboxScanner` as
a goroutine, which runs beside the loop: `scans` are the rounds the scanner gets
to while `Run` is running (the records it sends are among `q.items`). A panic of
the goroutine ends the whole process, and then `lead` is the number of receives
from the queue that the loop had completed: the loop has been through the first
`lead` records only, and `Run` has returned only when the closing receive, the
one after the last record, was among them. -/
def Manager.Run (m : Manager) (exec : ExecArgs → ExecResult) (q : Queue)
    (scans : List (Option String)) (lead : Nat) : RunTrace :=
  let scanner : Scanner :=
    if m.opt.MailboxEnabled then m.runMailboxScanner scans else .running []
  match scanner with
  | .running _ =>
    let r := m.runLoop exec q.closed q.items
    { scannerStarted := m.opt.MailboxEnabled, events := r.1, returned := r.2,
      panicked := false }
  | .panicked _ =>
    let r := m.runLoop exec false (q.items.take lead)
    { scannerStarted := m.opt.MailboxEnabled, events := r.1,
      returned := q.closed && decide (q.items.length < lead), panicked := true }

/-! ## Concrete requests -/

/-- An application value for evaluating the handlers on concrete requests: the
validators accept the one address and the one UUID used below, `ToLower` leaves
its (lower-case) argument as it is, the clock reads 2023-11-14 22:13:20 UTC,
the local time zone is UTC, and `json.Unmarshal` yields the given decoded
values. -/
def exampleApp (ses : Option sesNotif) (sendgrid : Option (List sendgridNotif)) : App :=
  { IsEmail := fun s => s == "a@b.com"
    reUUIDMatch := fun s => s == "f47ac10b-58cc-4372-a567-0e02b2c3d479"
    ToLower := fun s => s
    Now := Time.Unix UTC 1700000000
    Local := UTC
    EmailHeaderCampaignUUID := "X-Listmonk-Campaign"
    unmarshalSES := fun _ => ses
    unmarshalSendgrid := fun _ => sendgrid }

/-- A native postback that gives only an e-mail address. -/
def emailOnly : Bounce := { Bounce.zero with Email := "a@b.com" }

/-- A native postback that gives an e-mail address and a subscriber UUID. -/
def emailAndUUID : Bounce :=
  { Bounce.zero with Email := "a@b.com", SubscriberUUID := "f47ac10b-58cc-4372-a567-0e02b2c3d479" }

/-- A request to the native endpoint that binds to `b`. -/
def nativeRequest (b : Bounce) : Context := { service := "", bind := .ok b, body := some [] }

/-- A request with the given service and body (nothing to bind). -/
def bodyRequest (service : String) (body : Bytes) : Context :=
  { service := service, bind := .ok Bounce.zero, body := some body }

/-- An SES notification with the given bounce type, destinations, truncation
flag and headers. -/
def sesEvent (bounceType : String) (dest : List String) (truncated : Bool)
    (headers : List Header) : sesNotif :=
  { NotifType := "Bounce"
    Bounce := ⟨bounceType⟩
    Mail := { Timestamp := Time.Unix UTC 1700000000, HeadersTruncated := truncated,
              Destination := dest, Headers := headers } }

/-- The record for a permanent bounce of x@y.z reported in the body `[1, 2]`. -/
def permanentRecord : Bounce :=
  ⟨"", "x@y.z", "", "hard", "ses", [1, 2], Time.Unix UTC 1700000000⟩

/-- The record for a permanent bounce of x@y.z in the campaign c2, reported in
the body `[1, 2]`. -/
def campaignRecord : Bounce :=
  ⟨"", "x@y.z", "c2", "hard", "ses", [1, 2], Time.Unix UTC 1700000000⟩

/-- Two campaign headers: the first has no value, the second has one. -/
def twoCampaignHeaders : List Header :=
  [[("name", "X-Listmonk-Campaign")],
   [("name", "X-Listmonk-Campaign"), ("value", "c2")]]

/-- The two SendGrid events of the spec: a bounce for a@b.com and an open for
c@d.com. -/
def twoEvents : List sendgridNotif :=
  [⟨"a@b.com", 1700000000, "bounce"⟩, ⟨"c@d.com", 1700000000, "open"⟩]

/-- Options with the mailbox enabled and the given mailbox type. -/
def mailboxOpt (mailboxType : String) : Opt :=
  { BounceCount := 2, BounceAction := "blocklist", MailboxEnabled := true,
    MailboxType := mailboxType,
    Mailbox := ⟨"mail.example.com", 995, "bounces", "secret", "INBOX", true, false, 900000000000⟩,
    EnableWebhooks := true }

/-- The manager that `New` returns for the options with the mailbox enabled and
the mailbox type "imap". -/
def imapManager : Manager := ⟨1000, none, mailboxOpt "imap"⟩

/-- A closed queue of two records. -/
def twoRecords : Queue := ⟨[emailOnly, emailAndUUID], true⟩


/-! ## Theorems: the native postback -/

/-- The three tests of `validateBounceFields`, read off as a Boolean. -/
theorem validateBounceFields_eq_none_iff (b : Bounce) (app : App) :
    validateBounceFields b app = none ↔
      ¬ (b.Email = "" ∧ b.SubscriberUUID = "") ∧
      (b.Email ≠ "" → app.IsEmail b.Email = true) ∧
      (b.SubscriberUUID ≠ "" → app.reUUIDMatch b.SubscriberUUID = true) := by
  unfold validateBounceFields
  by_cases he : b.Email = "" <;> by_cases hu : b.SubscriberUUID = "" <;>
    cases hE : app.IsEmail b.Email <;> cases hU : app.reUUIDMatch b.SubscriberUUID <;>
    simp [he, hu, hE, hU]

/-- Every error of `validateBounceFields` has status 400. -/
theorem validateBounceFields_code (b : Bounce) (app : App) (e : HTTPError)
    (h : validateBounceFields b app = some e) : e.Code = StatusBadRequest := by
  unfold validateBounceFields at h
  split at h
  · cases h; rfl
  · split at h
    · cases h; rfl
    · split at h
      · cases h; rfl
      · cases h

/-- C1. `validateBounceFields` returns an error exactly when both `Email` and
`SubscriberUUID` are empty, or `Email` is non-empty and not a valid address, or
`SubscriberUUID` is non-empty and does not match the UUID pattern, and no error
otherwise; the error is a validation error (status 400), and the webhook handler
then returns it and records nothing. -/
theorem validateBounceFields_rejects_iff (b : Bounce) (app : App) :
    ((∃ e, validateBounceFields b app = some e) ↔
      (b.Email = "" ∧ b.SubscriberUUID = "") ∨
      (b.Email ≠ "" ∧ app.IsEmail b.Email = false) ∨
      (b.SubscriberUUID ≠ "" ∧ app.reUUIDMatch b.SubscriberUUID = false)) ∧
    (validateBounceFields b app = none ↔
      ¬ ((b.Email = "" ∧ b.SubscriberUUID = "") ∨
         (b.Email ≠ "" ∧ app.IsEmail b.Email = false) ∨
         (b.SubscriberUUID ≠ "" ∧ app.reUUIDMatch b.SubscriberUUID = false))) ∧
    (∀ e, validateBounceFields b app = some e →
      e.Code = StatusBadRequest ∧
      ∀ c : Context, c.service = "" → c.bind = .ok b →
        handleBounceWebhook c app = ⟨some e, [], false⟩) := by
  have key := validateBounceFields_eq_none_iff b app
  have hnone : validateBounceFields b app = none ↔
      ¬ ((b.Email = "" ∧ b.SubscriberUUID = "") ∨
         (b.Email ≠ "" ∧ app.IsEmail b.Email = false) ∨
         (b.SubscriberUUID ≠ "" ∧ app.reUUIDMatch b.SubscriberUUID = false)) := by
    rw [key]
    cases hE : app.IsEmail b.Email <;> cases hU : app.reUUIDMatch b.SubscriberUUID <;>
      by_cases he : b.Email = "" <;> by_cases hu : b.SubscriberUUID = "" <;> simp [he, hu]
  refine ⟨?_, hnone, ?_⟩
  · rw [← not_iff_not, ← hnone]
    cases h : validateBounceFields b app <;> simp
  · intro e h
    refine ⟨validateBounceFields_code b app e h, ?_⟩
    intro c hs hb
    simp [handleBounceWebhook, nativeBounce, hs, hb, h]

/-- C2, as stated, fails: the postback with the address a@b.com and a subscriber
UUID, both non-empty, is accepted by `validateBounceFields` under any validators
that accept that address and that UUID, and the handler records it. -/
theorem validateBounceFields_accepts_both :
    emailAndUUID.Email ≠ "" ∧ emailAndUUID.SubscriberUUID ≠ "" ∧
    (∀ app : App, app.IsEmail "a@b.com" = true →
      app.reUUIDMatch "f47ac10b-58cc-4372-a567-0e02b2c3d479" = true →
      validateBounceFields emailAndUUID app = none) ∧
    (handleBounceWebhook (nativeRequest emailAndUUID) (exampleApp none none)).recorded.length = 1 := by
  refine ⟨by decide, by decide, ?_, by decide⟩
  intro app hE hU
  simp [validateBounceFields, emailAndUUID, Bounce.zero, hE, hU]

/-- C2, amended. An object that `validateBounceFields` accepts has at least one
of `Email` and `SubscriberUUID` non-empty, and each non-empty one is valid; an
object with both a valid `Email` and a valid `SubscriberUUID` is accepted. -/
theorem validateBounceFields_accepts (b : Bounce) (app : App) :
    (validateBounceFields b app = none →
      (b.Email ≠ "" ∨ b.SubscriberUUID ≠ "") ∧
      (b.Email ≠ "" → app.IsEmail b.Email = true) ∧
      (b.SubscriberUUID ≠ "" → app.reUUIDMatch b.SubscriberUUID = true)) ∧
    (b.Email ≠ "" → b.SubscriberUUID ≠ "" → app.IsEmail b.Email = true →
      app.reUUIDMatch b.SubscriberUUID = true → validateBounceFields b app = none) := by
  rw [validateBounceFields_eq_none_iff]
  constructor
  · rintro ⟨h1, h2, h3⟩
    refine ⟨?_, h2, h3⟩
    by_cases he : b.Email = ""
    · right; intro hu; exact h1 ⟨he, hu⟩
    · left; exact he
  · intro he hu hE hU
    exact ⟨fun h => he h.1, fun _ => hE, fun _ => hU⟩

set_option maxRecDepth 8000 in
/-- The zero `Time` is in year 1, not in year 0. -/
theorem Time.zero_Year : Time.zero.Year = 1 := by decide

/-- C3. A native postback that passes validation, with `Email` set, `CreatedAt`
left at the zero `Time` and no `Meta`: the handler records one record, whose
`Meta` is the empty JSON object and whose `CreatedAt` is still the zero `Time`
(the test `Year() == 0` is false for it), whatever the clock reads. -/
theorem handleBounceWebhook_native_zero_CreatedAt (c : Context) (app : App) (b : Bounce)
    (hs : c.service = "") (hb : c.bind = .ok b)
    (hv : validateBounceFields b app = none) (_he : b.Email ≠ "")
    (ht : b.CreatedAt = Time.zero) (hm : b.Meta = []) :
    handleBounceWebhook c app =
      ⟨none, [{ b with Email := app.ToLower b.Email, Meta := emptyJSONObject,
                       CreatedAt := Time.zero }], false⟩ := by
  simp [handleBounceWebhook, nativeBounce, hs, hb, hv, ht, hm, Time.zero_Year]

/-- C3 at a concrete request: the postback that gives only the address a@b.com
is recorded with the zero `Time` as `CreatedAt`, while the clock reads another
instant. -/
theorem handleBounceWebhook_native_emailOnly :
    handleBounceWebhook (nativeRequest emailOnly) (exampleApp none none) =
      ⟨none, [{ emailOnly with Meta := emptyJSONObject, CreatedAt := Time.zero }], false⟩ ∧
    (exampleApp none none).Now ≠ Time.zero :=
  ⟨handleBounceWebhook_native_zero_CreatedAt (nativeRequest emailOnly) (exampleApp none none)
      emailOnly rfl rfl (by decide) (by decide) rfl rfl,
   by decide⟩

/-! ## Theorems: the SES notification -/

/-- The record `parseSESNotif` builds from a decoded event with the first
destination `email`. -/
theorem parseSESNotif_of_cons (c : Context) (app : App) (rawReq : Bytes) (event : sesNotif)
    (email : String) (others : List String)
    (hbody : c.body = some rawReq) (hdec : app.unmarshalSES rawReq = some event)
    (hdest : event.Mail.Destination = email :: others) :
    parseSESNotif c app = .ok
      { SubscriberUUID := ""
        Email := email
        CampaignUUID :=
          if event.Mail.HeadersTruncated then ""
          else scanHeaders app.EmailHeaderCampaignUUID event.Mail.Headers ""
        Typ := if event.Bounce.BounceType = "Permanent" then "hard" else "soft"
        Source := "ses"
        Meta := rawReq
        CreatedAt := event.Mail.Timestamp } := by
  cases ht : event.Mail.HeadersTruncated <;>
    simp [parseSESNotif, hbody, hdec, hdest, ht, Bounce.zero]

/-- With an empty destination list `parseSESNotif` returns the validation
error. -/
theorem parseSESNotif_of_nil (c : Context) (app : App) (rawReq : Bytes) (event : sesNotif)
    (hbody : c.body = some rawReq) (hdec : app.unmarshalSES rawReq = some event)
    (hdest : event.Mail.Destination = []) :
    parseSESNotif c app = .error ⟨StatusBadRequest, "globals.messages.invalidData"⟩ := by
  simp [parseSESNotif, hbody, hdec, hdest]

/-- C4. For a notification whose body is read and decodes to `event`,
`parseSESNotif` returns an error exactly when the destination list is empty, and
that error is the validation error (status 400, invalid data); it never panics
on the access to `Destination[0]`; and with a non-empty list it succeeds. -/
theorem parseSESNotif_error_iff (c : Context) (app : App) (rawReq : Bytes) (event : sesNotif)
    (hbody : c.body = some rawReq) (hdec : app.unmarshalSES rawReq = some event) :
    ((∃ e, parseSESNotif c app = .error e) ↔ event.Mail.Destination = []) ∧
    (∀ e, parseSESNotif c app = .error e →
      e = ⟨StatusBadRequest, "globals.messages.invalidData"⟩) ∧
    (∀ msg, parseSESNotif c app ≠ .panicked msg) ∧
    (event.Mail.Destination ≠ [] → ∃ b, parseSESNotif c app = .ok b) := by
  cases hdest : event.Mail.Destination with
  | nil =>
    have h := parseSESNotif_of_nil c app rawReq event hbody hdec hdest
    simp [h]
  | cons email others =>
    have h := parseSESNotif_of_cons c app rawReq event email others hbody hdec hdest
    simp [h]

/-- C4 at a concrete notification: one with no destination is rejected. -/
theorem parseSESNotif_error_iff_empty :
    (∃ e, parseSESNotif (bodyRequest "ses" [1])
        (exampleApp (some (sesEvent "Permanent" [] false [])) none) = .error e) :=
  (parseSESNotif_error_iff (bodyRequest "ses" [1])
    (exampleApp (some (sesEvent "Permanent" [] false [])) none) [1]
    (sesEvent "Permanent" [] false []) rfl rfl).1.mpr rfl

/-- C5. The record `parseSESNotif` returns has `Type` "hard" exactly when the
bounce type is the string "Permanent" and "soft" for every other string, `Email`
the first element of the destination list, `Source` "ses", and `Meta` the raw
request body. -/
theorem parseSESNotif_record (c : Context) (app : App) (rawReq : Bytes) (event : sesNotif)
    (b : Bounce)
    (hbody : c.body = some rawReq) (hdec : app.unmarshalSES rawReq = some event)
    (hok : parseSESNotif c app = .ok b) :
    (b.Typ = "hard" ↔ event.Bounce.BounceType = "Permanent") ∧
    (event.Bounce.BounceType ≠ "Permanent" → b.Typ = "soft") ∧
    event.Mail.Destination.head? = some b.Email ∧
    b.Source = "ses" ∧
    b.Meta = rawReq := by
  cases hdest : event.Mail.Destination with
  | nil =>
    rw [parseSESNotif_of_nil c app rawReq event hbody hdec hdest] at hok
    cases hok
  | cons email others =>
    rw [parseSESNotif_of_cons c app rawReq event email others hbody hdec hdest] at hok
    injection hok with hok
    subst hok
    by_cases hp : event.Bounce.BounceType = "Permanent" <;> simp [hp]

/-- C5 at a concrete notification: "Permanent" gives a hard bounce for the first
of two destinations, with source "ses" and the body as `Meta`. -/
theorem parseSESNotif_record_permanent :
    parseSESNotif (bodyRequest "ses" [1, 2])
        (exampleApp (some (sesEvent "Permanent" ["x@y.z", "q@y.z"] false [])) none) =
      .ok permanentRecord ∧
    permanentRecord.Typ = "hard" ∧ permanentRecord.Email = "x@y.z" ∧
    permanentRecord.Source = "ses" ∧ permanentRecord.Meta = [1, 2] :=
  have h := parseSESNotif_record (bodyRequest "ses" [1, 2])
    (exampleApp (some (sesEvent "Permanent" ["x@y.z", "q@y.z"] false [])) none) [1, 2]
    (sesEvent "Permanent" ["x@y.z", "q@y.z"] false []) permanentRecord rfl rfl (by decide)
  ⟨by decide, h.1.mpr rfl, rfl, h.2.2.2.1, h.2.2.2.2⟩

/-- The scan stops at the first entry that has the campaign name and a value,
and yields the empty string when there is none. -/
theorem scanHeaders_eq (campaignHeader : String) (headers : List Header) :
    scanHeaders campaignHeader headers "" =
      (((headers.find? (campaignHit campaignHeader)).bind (fun h => h.lookup "value")).getD "") := by
  induction headers with
  | nil => rfl
  | cons h rest ih =>
    unfold scanHeaders
    cases hn : h.lookup "name" with
    | none => simp [List.find?, campaignHit, hn, ih]
    | some key =>
      by_cases hk : key = campaignHeader
      · cases hv : h.lookup "value" with
        | none => simp [List.find?, campaignHit, hn, hk, hv, ih]
        | some v => simp [List.find?, campaignHit, hn, hk, hv]
      · have hk2 : (key == campaignHeader) = false := by simpa using hk
        simp [List.find?, campaignHit, hn, hk, hk2, ih]

/-- Entries before the first hit do not matter, nor do those after it. -/
theorem scanHeaders_append (campaignHeader : String) (before after : List Header) (h : Header)
    (v : String) (hbefore : ∀ g ∈ before, campaignHit campaignHeader g = false)
    (hn : h.lookup "name" = some campaignHeader) (hv : h.lookup "value" = some v) :
    scanHeaders campaignHeader (before ++ h :: after) "" = v := by
  rw [scanHeaders_eq]
  have hhit : campaignHit campaignHeader h = true := by simp [campaignHit, hn, hv]
  have : (before ++ h :: after).find? (campaignHit campaignHeader) = some h := by
    induction before with
    | nil => simp [List.find?, hhit]
    | cons g gs ih =>
      have hg := hbefore g (by simp)
      simp only [List.cons_append, List.find?, hg]
      exact ih (fun x hx => hbefore x (by simp [hx]))
  simp [this, hv]

/-- C6, as stated, fails: the first entry named as the campaign header has no
value, so the claim gives the empty string, but the scan goes on and the record
takes the value "c2" of the second entry. -/
theorem parseSESNotif_campaign_second_entry :
    (twoCampaignHeaders.find? (fun h => h.lookup "name" == some "X-Listmonk-Campaign")).map
        (fun h => (h.lookup "value").getD "") = some "" ∧
    parseSESNotif (bodyRequest "ses" [1, 2])
        (exampleApp (some (sesEvent "Permanent" ["x@y.z"] false twoCampaignHeaders)) none) =
      .ok campaignRecord ∧
    campaignRecord.CampaignUUID = "c2" := by
  refine ⟨?_, ?_, ?_⟩ <;> decide

/-- C6, amended. In the record `parseSESNotif` returns, `CampaignUUID` is empty
when `headersTruncated` is true; otherwise it is the `value` of the first entry
of the headers array that has both the campaign header as `name` and a `value`,
and empty when there is no such entry. Entries before that one (which lack the
name or the value) and entries after it do not influence the result. -/
theorem parseSESNotif_campaign (c : Context) (app : App) (rawReq : Bytes) (event : sesNotif)
    (b : Bounce)
    (hbody : c.body = some rawReq) (hdec : app.unmarshalSES rawReq = some event)
    (hok : parseSESNotif c app = .ok b) :
    (event.Mail.HeadersTruncated = true → b.CampaignUUID = "") ∧
    (event.Mail.HeadersTruncated = false →
      b.CampaignUUID =
        ((event.Mail.Headers.find? (campaignHit app.EmailHeaderCampaignUUID)).bind
          (fun h => h.lookup "value")).getD "") ∧
    (event.Mail.HeadersTruncated = false →
      ∀ (before after : List Header) (h : Header) (v : String),
        event.Mail.Headers = before ++ h :: after →
        (∀ g ∈ before, campaignHit app.EmailHeaderCampaignUUID g = false) →
        h.lookup "name" = some app.EmailHeaderCampaignUUID → h.lookup "value" = some v →
        b.CampaignUUID = v) := by
  cases hdest : event.Mail.Destination with
  | nil =>
    rw [parseSESNotif_of_nil c app rawReq event hbody hdec hdest] at hok
    cases hok
  | cons email others =>
    rw [parseSESNotif_of_cons c app rawReq event email others hbody hdec hdest] at hok
    injection hok with hok
    subst hok
    refine ⟨fun ht => by simp [ht], fun ht => by simp [ht, scanHeaders_eq], ?_⟩
    intro ht before after h v hh hbefore hn hv
    simp only [ht, hh]
    exact scanHeaders_append _ before after h v hbefore hn hv

/-- C6 at a concrete notification: with the two campaign headers, the first of
them without a value, the record has the value of the second. -/
theorem parseSESNotif_campaign_twoHeaders :
    parseSESNotif (bodyRequest "ses" [1, 2])
        (exampleApp (some (sesEvent "Permanent" ["x@y.z"] false twoCampaignHeaders)) none) =
      .ok campaignRecord ∧
    campaignRecord.CampaignUUID = "c2" :=
  have h := parseSESNotif_campaign (bodyRequest "ses" [1, 2])
    (exampleApp (some (sesEvent "Permanent" ["x@y.z"] false twoCampaignHeaders)) none) [1, 2]
    (sesEvent "Permanent" ["x@y.z"] false twoCampaignHeaders) campaignRecord rfl rfl (by decide)
  ⟨by decide, (h.2.1 rfl).trans (by decide)⟩

/-! ## Theorems: the SendGrid notification -/

/-- The loop appends to `out` the records of the bounce events, in order. -/
theorem sendgridLoop_eq (app : App) (events : List sendgridNotif) (out : List Bounce) :
    sendgridLoop app events out =
      out ++ (events.filter (fun e => e.Event == "bounce")).map
        (fun e => ⟨"", e.Email, "", BounceTypeHard, "sendgrid", [], Time.Unix app.Local e.Timestamp⟩) := by
  induction events generalizing out with
  | nil => simp [sendgridLoop]
  | cons e rest ih =>
    unfold sendgridLoop
    by_cases he : e.Event = "bounce"
    · simp [he, ih, Bounce.zero, Time.zero]
    · have he2 : (e.Event == "bounce") = false := by simpa using he
      simp [he, he2, ih]

/-- C7. For a body that is read and decodes to `events`, `parseSendgridNotif`
returns no error, and its output is the list of the events of type "bounce", in
the same order, each as a record with the event's `Email`, type hard, source
"sendgrid" and `CreatedAt` the event's Unix timestamp; the number of records is
the number of "bounce" events, and none when there is no such event. -/
theorem parseSendgridNotif_bounces (c : Context) (app : App) (rawReq : Bytes)
    (events : List sendgridNotif)
    (hbody : c.body = some rawReq) (hdec : app.unmarshalSendgrid rawReq = some events) :
    parseSendgridNotif c app =
      .ok ((events.filter (fun e => e.Event == "bounce")).map
        (fun e => ⟨"", e.Email, "", "hard", "sendgrid", [], Time.Unix app.Local e.Timestamp⟩)) ∧
    (∀ out, parseSendgridNotif c app = .ok out →
      out.length = events.countP (fun e => e.Event == "bounce")) ∧
    ((∀ e ∈ events, e.Event ≠ "bounce") → parseSendgridNotif c app = .ok []) := by
  have h : parseSendgridNotif c app =
      .ok ((events.filter (fun e => e.Event == "bounce")).map
        (fun e => ⟨"", e.Email, "", "hard", "sendgrid", [], Time.Unix app.Local e.Timestamp⟩)) := by
    simp [parseSendgridNotif, hbody, hdec, sendgridLoop_eq, BounceTypeHard]
  refine ⟨h, ?_, ?_⟩
  · intro out hout
    rw [h] at hout
    injection hout with hout
    subst hout
    simp [List.countP_eq_length_filter]
  · intro hnone
    rw [h]
    have : events.filter (fun e => e.Event == "bounce") = [] := by
      simp only [List.filter_eq_nil_iff]
      intro e he
      simpa using hnone e he
    simp [this]

/-- C7 at the payload of the spec: the bounce for a@b.com and the open for
c@d.com yield exactly one record, a hard bounce for a@b.com. -/
theorem parseSendgridNotif_twoEvents :
    parseSendgridNotif (bodyRequest "sendgrid" [1]) (exampleApp none (some twoEvents)) =
      .ok [⟨"", "a@b.com", "", "hard", "sendgrid", [], Time.Unix UTC 1700000000⟩] :=
  (parseSendgridNotif_bounces (bodyRequest "sendgrid" [1]) (exampleApp none (some twoEvents))
    [1] twoEvents rfl rfl).1.trans (by decide)

/-! ## Theorems: the bounce manager -/

/-- C8, as stated, fails: with the mailbox enabled, the mailbox type "pop3" is
refused by `New` with the construction error. -/
theorem New_pop3_error :
    (mailboxOpt "pop3").MailboxEnabled = true ∧ (mailboxOpt "pop3").MailboxType ≠ "" ∧
    New (mailboxOpt "pop3") = .error "unknown bounce mailbox type" := by
  refine ⟨by decide, by decide, rfl⟩

/-- C8, amended. With `MailboxEnabled` true, `New` returns the construction
error and no manager exactly when `MailboxType` is neither "pop" nor "imap"; for
"pop" and for "imap" it returns a manager and no error. -/
theorem New_error_iff (opt : Opt) (henabled : opt.MailboxEnabled = true) :
    (New opt = .error "unknown bounce mailbox type" ↔
      opt.MailboxType ≠ "pop" ∧ opt.MailboxType ≠ "imap") ∧
    ((∃ err, New opt = .error err) ↔
      opt.MailboxType ≠ "pop" ∧ opt.MailboxType ≠ "imap") ∧
    ((opt.MailboxType = "pop" ∨ opt.MailboxType = "imap") → ∃ m, New opt = .ok m) := by
  unfold New
  by_cases hp : opt.MailboxType = "pop"
  · simp [henabled, hp]
  · by_cases hi : opt.MailboxType = "imap"
    · simp [henabled, hi]
    · simp [henabled, hp, hi]

/-- C8 at the mailbox type "xyz": `New` returns the construction error. -/
theorem New_error_xyz : New (mailboxOpt "xyz") = .error "unknown bounce mailbox type" :=
  (New_error_iff (mailboxOpt "xyz") rfl).1.mpr ⟨by decide, by decide⟩

/-- The calls of `Exec` in the loop of `Run` are one for each record, in order,
and the loop returns exactly when the channel is closed. -/
theorem runLoop_spec (m : Manager) (exec : ExecArgs → ExecResult) (closed : Bool)
    (items : List Bounce) :
    execCalls (m.runLoop exec closed items).1 = items.map m.execArgs ∧
    (m.runLoop exec closed items).2 = closed := by
  induction items with
  | nil => simp [Manager.runLoop, execCalls]
  | cons b rest ih =>
    obtain ⟨ih1, ih2⟩ := ih
    refine ⟨?_, by simpa [Manager.runLoop] using ih2⟩
    simp only [Manager.runLoop, execCalls, List.map_cons]
    congr 1
    cases exec (m.execArgs b) with
    | ok => simpa using ih1
    | pqError Column msg =>
      by_cases hc : Column = "subscriber_id" <;> simp [hc, execCalls, ih1]
    | otherError msg => simp [execCalls, ih1]

/-- With a client in the `mailbox` field the scanner does not panic. -/
theorem runMailboxScanner_running (m : Manager) (scans : List (Option String))
    (h : m.mailbox ≠ none) : ∃ logs, m.runMailboxScanner scans = .running logs := by
  induction scans with
  | nil => exact ⟨[], rfl⟩
  | cons scan later ih =>
    obtain ⟨logs, hlogs⟩ := ih
    cases hm : m.mailbox with
    | none => exact absurd hm h
    | some client =>
      simp only [Manager.runMailboxScanner, hm, hlogs]
      exact ⟨_, rfl⟩

/-- C9. With the queue as the sequence of records enqueued before it is closed
and the write of the persistence gateway as an arbitrary function. For a manager
whose scanner is not started or has a client: `Run` calls the write once for
each record, in the order of the queue, with the seven fields of the record and
the configured `BounceCount` and `BounceAction`, whatever the results of the
calls are; the process does not panic, and `Run` returns exactly when the queue
is closed, after the calls for all the records. For a manager with the mailbox
enabled and a nil `mailbox` (the one `New` returns for "imap"), once the scanner
goroutine has reached its first statement: the write has been called only for
the first `lead` records, the process has panicked, and `Run` has not returned
when `lead` is at most the number of records. -/
theorem Run_calls (m : Manager) (exec : ExecArgs → ExecResult) (q : Queue)
    (scans : List (Option String)) (lead : Nat) :
    ((m.opt.MailboxEnabled = true → m.mailbox ≠ none) →
      execCalls (m.Run exec q scans lead).events =
        q.items.map (fun b => ⟨b.SubscriberUUID, b.Email, b.CampaignUUID, b.Typ, b.Source,
          b.Meta, b.CreatedAt, m.opt.BounceCount, m.opt.BounceAction⟩) ∧
      ((m.Run exec q scans lead).returned = true ↔ q.closed = true) ∧
      (m.Run exec q scans lead).panicked = false ∧
      (∀ exec2 : ExecArgs → ExecResult,
        execCalls (m.Run exec2 q scans lead).events =
          execCalls (m.Run exec q scans lead).events)) ∧
    (m.opt.MailboxEnabled = true → m.mailbox = none → scans ≠ [] →
      execCalls (m.Run exec q scans lead).events =
        (q.items.take lead).map (fun b => ⟨b.SubscriberUUID, b.Email, b.CampaignUUID, b.Typ,
          b.Source, b.Meta, b.CreatedAt, m.opt.BounceCount, m.opt.BounceAction⟩) ∧
      (m.Run exec q scans lead).panicked = true ∧
      (lead ≤ q.items.length → (m.Run exec q scans lead).returned = false)) := by
  constructor
  · intro hclient
    have hrun : ∀ ex : ExecArgs → ExecResult, m.Run ex q scans lead =
        { scannerStarted := m.opt.MailboxEnabled
          events := (m.runLoop ex q.closed q.items).1
          returned := (m.runLoop ex q.closed q.items).2
          panicked := false } := by
      intro ex
      cases he : m.opt.MailboxEnabled with
      | false => simp [Manager.Run, he]
      | true =>
        obtain ⟨logs, hlogs⟩ := runMailboxScanner_running m scans (hclient he)
        simp [Manager.Run, he, hlogs]
    have h := runLoop_spec m exec q.closed q.items
    refine ⟨?_, ?_, ?_, ?_⟩
    · rw [hrun exec]
      simpa [Manager.execArgs] using h.1
    · rw [hrun exec]
      simp [h.2]
    · rw [hrun exec]
    · intro exec2
      have h2 := runLoop_spec m exec2 q.closed q.items
      rw [hrun exec, hrun exec2]
      simp [h.1, h2.1]
  · intro he hnil hscans
    have hrun : m.Run exec q scans lead =
        { scannerStarted := m.opt.MailboxEnabled
          events := (m.runLoop exec false (q.items.take lead)).1
          returned := q.closed && decide (q.items.length < lead)
          panicked := true } := by
      cases scans with
      | nil => exact absurd rfl hscans
      | cons scan later => simp [Manager.Run, he, Manager.runMailboxScanner, hnil]
    have h := runLoop_spec m exec false (q.items.take lead)
    rw [hrun]
    refine ⟨?_, rfl, ?_⟩
    · simpa [Manager.execArgs] using h.1
    · intro hle
      simp [Nat.not_lt.mpr hle]

/-- C9 at the manager `New` returns for "imap" and a closed queue of two
records: when the scanner panics after the first receive of the loop, the write
has been called for the first record only, `Run` has not returned and the
process has panicked. -/
theorem Run_imapManager_twoRecords :
    New (mailboxOpt "imap") = .ok imapManager ∧
    execCalls (imapManager.Run (fun _ => .ok) twoRecords [none] 1).events =
      [imapManager.execArgs emailOnly] ∧
    (imapManager.Run (fun _ => .ok) twoRecords [none] 1).panicked = true ∧
    (imapManager.Run (fun _ => .ok) twoRecords [none] 1).returned = false :=
  have h := (Run_calls imapManager (fun _ => .ok) twoRecords [none] 1).2 rfl rfl (by decide)
  ⟨rfl, h.1.trans (by decide), h.2.1, h.2.2 (by decide)⟩

/-- C10. With the mailbox enabled and the mailbox type "imap", `New` succeeds
and returns a manager whose `mailbox` is nil; `Run` starts `runMailboxScanner`
for it, and the first call of `Scan` there is a call on the nil interface, a
run-time panic, which ends the process. -/
theorem New_imap_mailbox_nil (opt : Opt) (henabled : opt.MailboxEnabled = true)
    (himap : opt.MailboxType = "imap") :
    ∃ m, New opt = .ok m ∧ m.mailbox = none ∧
      (∀ exec q scans lead, (m.Run exec q scans lead).scannerStarted = true) ∧
      (∀ scan later, m.runMailboxScanner (scan :: later) =
        .panicked "invalid memory address or nil pointer dereference") ∧
      (∀ exec q scan later lead, (m.Run exec q (scan :: later) lead).panicked = true) := by
  refine ⟨⟨1000, none, opt⟩, ?_, rfl, ?_, ?_, ?_⟩
  · simp [New, henabled, himap]
  · intro exec q scans lead
    cases scans <;> simp [Manager.Run, henabled, Manager.runMailboxScanner]
  · intro scan later
    simp [Manager.runMailboxScanner]
  · intro exec q scan later lead
    simp [Manager.Run, henabled, Manager.runMailboxScanner]

/-- C10 at the options with the mailbox enabled and the type "imap". -/
theorem New_imap_mailbox_nil_example :
    ∃ m, New (mailboxOpt "imap") = .ok m ∧ m.mailbox = none ∧
      (∀ exec q scans lead, (m.Run exec q scans lead).scannerStarted = true) ∧
      (∀ scan later, m.runMailboxScanner (scan :: later) =
        .panicked "invalid memory address or nil pointer dereference") ∧
      (∀ exec q scan later lead, (m.Run exec q (scan :: later) lead).panicked = true) :=
  New_imap_mailbox_nil (mailboxOpt "imap") rfl rfl

end Listmonk
